import Mathlib

/-!
# Konsole: history policy selection and profile ordering

A shallow embedding of

* `CompactHistoryType` from `src/History.cpp` (constructor, `isEnabled`,
  `maximumLineCount`, `scroll`), and
* `ProfileManager::profileNamesCompare` from `src/profile/ProfileManager.h`.

`History.cpp` uses the classes `HistoryScroll` and `CompactHistoryScroll`, whose
declarations and member functions live in headers and sources that are not part of
`src/`.  `CompactHistoryType::scroll` is therefore embedded over an arbitrary
implementation of the two members it calls (the constructor and `setMaxNbLines`);
a reader-level model of `CompactHistoryScroll`, written from the specification, is
supplied separately and clearly marked.

`unsigned int` values are natural numbers.  No arithmetic is performed on them by
the embedded functions, except for the `unsigned int → int` conversion in
`maximumLineCount`, which is written out modulo `2^32`.
-/

namespace Konsole

/-! ## Data model of the scrollback store -/

/-- Modelled from the spec: the `Cell` of §3 (the `Character` type is declared in a
header that is not under `src/`): a character code, a foreground and a background
colour reference and the style/attribute flags. -/
structure Cell where
  character : Nat
  foregroundColor : Nat
  backgroundColor : Nat
  rendition : Nat
  deriving DecidableEq

/-- Modelled from the spec: a closed line of §3, its cells in column order together
with the wrapped flag (`true` for a soft-wrap continuation). -/
structure Line where
  cells : List Cell
  wrapped : Bool
  deriving DecidableEq

/-- Modelled from the spec: the blank cell that §4.3 returns for a column beyond the
end of a line. -/
def Cell.blank : Cell := ⟨0, 0, 0, 0⟩

/-- Modelled from the spec: the reader-visible state of the in-memory scroll of §4.4
(class `CompactHistoryScroll`, not under `src/`): the live closed lines, oldest
first, and the configured maximum line count. -/
structure CompactHistoryScroll where
  lines : List Line
  _maxLineCount : Nat
  deriving DecidableEq

/-- Modelled from the spec: the constructor `CompactHistoryScroll(maxLineCount)`; a
line record only comes into being when a newline is committed (§3, Lifecycle), so a
new scroll has no lines. -/
def CompactHistoryScroll.create (maxLineCount : Nat) : CompactHistoryScroll :=
  ⟨[], maxLineCount⟩

/-- Modelled from the spec: `evict_front_line()` of §4.3 removes the oldest line
record. -/
def evictFrontLine : List Line → List Line
  | [] => []
  | _ :: rest => rest

/-- Modelled from the spec: the eviction loop of §4.4, "evicts from the front until
within bound": while more than `bound` lines are live, the oldest one is removed. -/
def evictToBound (bound : Nat) : List Line → List Line
  | [] => []
  | l :: rest =>
    if bound < (l :: rest).length then evictToBound bound (evictFrontLine (l :: rest))
    else l :: rest

/-- Modelled from the spec: `set_max_line_count(N)` of §4.4
(`CompactHistoryScroll::setMaxNbLines`, not under `src/`): the limit becomes `N`;
if it is smaller than the current content the oldest lines are evicted at once,
otherwise the content is left alone. -/
def CompactHistoryScroll.setMaxNbLines (s : CompactHistoryScroll) (lineCount : Nat) :
    CompactHistoryScroll :=
  ⟨evictToBound lineCount s.lines, lineCount⟩

/-- The two members of `CompactHistoryScroll` that `CompactHistoryType::scroll`
calls.  Their code is not under `src/`, so `scroll` takes them as a parameter. -/
structure CompactScrollOps (β : Type) where
  construct : Nat → β
  setMaxNbLines : β → Nat → β

/-- The operations of the reader-level model of `CompactHistoryScroll`. -/
def specOps : CompactScrollOps CompactHistoryScroll :=
  ⟨CompactHistoryScroll.create, CompactHistoryScroll.setMaxNbLines⟩

/-- Modelled from the spec: the dynamic kinds of a `HistoryScroll` object (§4.6:
disabled, unbounded file-backed, bounded in-memory).  `β` is the representation of
the in-memory kind, the target of the `dynamic_cast` in `scroll`. -/
inductive HistoryScroll (β : Type) where
  | none : HistoryScroll β
  | file (lines : List Line) : HistoryScroll β
  | compact (buffer : β) : HistoryScroll β
  deriving DecidableEq

/-- Modelled from the spec: the closed lines a reader can see in a scroll, oldest
first; the disabled scroll reports zero lines (§4.6). -/
def HistoryScroll.lines : HistoryScroll CompactHistoryScroll → List Line
  | .none => []
  | .file ls => ls
  | .compact b => b.lines

/-- Modelled from the spec: `lineCount()` of §6. -/
def HistoryScroll.lineCount (s : HistoryScroll CompactHistoryScroll) : Nat :=
  s.lines.length

/-- Modelled from the spec: `lineLength(line)` of §6; `none` is the out-of-range
result of §7. -/
def HistoryScroll.lineLength (s : HistoryScroll CompactHistoryScroll) (line : Nat) :
    Option Nat :=
  match s.lines[line]? with
  | some l => some l.cells.length
  | Option.none => Option.none

/-- Modelled from the spec: `cellAt(line, col)` of §6; a column beyond the end of a
live line reads as the blank cell (§4.3), `none` is the out-of-range result of §7. -/
def HistoryScroll.cellAt (s : HistoryScroll CompactHistoryScroll) (line col : Nat) :
    Option Cell :=
  match s.lines[line]? with
  | some l => some (l.cells.getD col Cell.blank)
  | Option.none => Option.none

/-- Modelled from the spec: `isLineWrapped(line)` of §6; `none` is the out-of-range
result of §7. -/
def HistoryScroll.isLineWrapped (s : HistoryScroll CompactHistoryScroll) (line : Nat) :
    Option Bool :=
  match s.lines[line]? with
  | some l => some l.wrapped
  | Option.none => Option.none

/-! ## `CompactHistoryType` (src/History.cpp) -/

/-- The class `CompactHistoryType`; its only data member is `_maxLines`
(`unsigned int`). -/
structure CompactHistoryType where
  _maxLines : Nat
  deriving DecidableEq

/-- `CompactHistoryType::CompactHistoryType(unsigned int nbLines)`, History.cpp:60. -/
def CompactHistoryType.create (nbLines : Nat) : CompactHistoryType :=
  ⟨nbLines⟩

/-- `CompactHistoryType::isEnabled`, History.cpp:65. -/
def CompactHistoryType.isEnabled (_t : CompactHistoryType) : Bool :=
  true

/-- `CompactHistoryType::maximumLineCount`, History.cpp:70: `_maxLines` converted
from `unsigned int` to `int`. -/
def CompactHistoryType.maximumLineCount (t : CompactHistoryType) : Int :=
  if t._maxLines % 2 ^ 32 < 2 ^ 31 then (t._maxLines % 2 ^ 32 : Nat)
  else ((t._maxLines % 2 ^ 32 : Nat) : Int) - 2 ^ 32

/-- What a call of `scroll` leaves behind: the object the returned pointer refers to,
and whether the statement `delete old` was executed. -/
structure ScrollResult (β : Type) where
  ret : HistoryScroll β
  deletedOld : Bool
  deriving DecidableEq

/-- `CompactHistoryType::scroll`, History.cpp:75.  The argument is `Option.none` for
a null pointer.  A previous scroll that is a `CompactHistoryScroll` is reconfigured
and returned; a previous scroll of any other kind is deleted and a fresh
`CompactHistoryScroll` is returned, as for a null pointer. -/
def CompactHistoryType.scroll {β : Type} (ops : CompactScrollOps β)
    (t : CompactHistoryType) : Option (HistoryScroll β) → ScrollResult β
  | some (.compact oldBuffer) => ⟨.compact (ops.setMaxNbLines oldBuffer t._maxLines), false⟩
  | some (.file _) => ⟨.compact (ops.construct t._maxLines), true⟩
  | some .none => ⟨.compact (ops.construct t._maxLines), true⟩
  | Option.none => ⟨.compact (ops.construct t._maxLines), false⟩

/-! ## `ProfileManager::profileNamesCompare` (src/profile/ProfileManager.h) -/

/-- The two observers of `Profile` that the comparator reads (`Profile.h` is not under
`src/`): `name()` and `isFallback()`. -/
structure Profile where
  name : String
  isFallback : Bool
  deriving DecidableEq

/-- `ProfileManager::profileNamesCompare`, ProfileManager.h:216.  The Qt function
`QString::localeAwareCompare` is a parameter. -/
def profileNamesCompare (localeAwareCompare : String → String → Int)
    (p1 p2 : Profile) : Bool :=
  if p1.isFallback then true
  else if p2.isFallback then false
  else decide (localeAwareCompare p1.name p2.name < 0)

/-- A sample three-way comparison of names, used to evaluate the comparator on
concrete profiles: names are compared by length. -/
def lengthCompare (a b : String) : Int :=
  (a.length : Int) - (b.length : Int)

/-! ## Sample data -/

/-- A plain cell showing the character with code `c`. -/
def plainCell (c : Nat) : Cell := ⟨c, 0, 0, 0⟩

/-- The line "abc", closed by a soft wrap. -/
def lineAbc : Line := ⟨[plainCell 97, plainCell 98, plainCell 99], true⟩

/-- The line "de", closed by a hard newline. -/
def lineDe : Line := ⟨[plainCell 100, plainCell 101], false⟩

/-- The line "f", closed by a hard newline. -/
def lineF : Line := ⟨[plainCell 102], false⟩

/-! ## Facts about the eviction loop -/

theorem evictToBound_eq_drop (bound : Nat) (ls : List Line) :
    evictToBound bound ls = ls.drop (ls.length - bound) := by
  induction ls with
  | nil => simp [evictToBound]
  | cons l rest ih =>
    unfold evictToBound
    by_cases h : bound < (l :: rest).length
    · rw [if_pos h]
      simp only [evictFrontLine, ih]
      have hlen : (l :: rest).length - bound = (rest.length - bound) + 1 := by
        simp only [List.length_cons] at h ⊢
        omega
      rw [hlen, List.drop_succ_cons]
    · rw [if_neg h]
      have hlen : (l :: rest).length - bound = 0 := by omega
      rw [hlen, List.drop_zero]

theorem evictToBound_of_le (bound : Nat) (ls : List Line) (h : ls.length ≤ bound) :
    evictToBound bound ls = ls := by
  rw [evictToBound_eq_drop, Nat.sub_eq_zero_of_le h, List.drop_zero]

theorem evictToBound_length (bound : Nat) (ls : List Line) :
    (evictToBound bound ls).length = min ls.length bound := by
  rw [evictToBound_eq_drop, List.length_drop]
  omega

/-- The three line readers only depend on the line record they are pointed at. -/
theorem readers_congr (s s2 : HistoryScroll CompactHistoryScroll) (i j : Nat)
    (h : s.lines[i]? = s2.lines[j]?) :
    s.lineLength i = s2.lineLength j ∧
    (∀ col, s.cellAt i col = s2.cellAt j col) ∧
    s.isLineWrapped i = s2.isLineWrapped j := by
  simp only [HistoryScroll.lineLength, HistoryScroll.cellAt, HistoryScroll.isLineWrapped, h]
  exact ⟨trivial, fun _ => trivial, trivial⟩

/-- The lines of the scroll returned for a previous in-memory scroll, in the
reader-level model. -/
theorem scroll_compact_lines (t : CompactHistoryType) (old : CompactHistoryScroll) :
    (t.scroll specOps (some (.compact old))).ret.lines
      = old.lines.drop (old.lines.length - t._maxLines) := by
  simp [CompactHistoryType.scroll, specOps, CompactHistoryScroll.setMaxNbLines,
    HistoryScroll.lines, evictToBound_eq_drop]

/-! ## Policy switches between in-memory policies -/

/-- C1: switching to a bounded in-memory policy whose limit is at least the current
content keeps the history.  When the previous scroll is a `CompactHistoryScroll`
holding `n ≤ _maxLines` lines, the returned scroll reports the same line count and,
for every line `i < n`, the same length, the same cell in every column and the same
wrapped flag. -/
theorem scroll_keeps_history_within_limit (t : CompactHistoryType)
    (old : CompactHistoryScroll)
    (h : (HistoryScroll.compact old).lineCount ≤ t._maxLines) :
    (t.scroll specOps (some (.compact old))).ret.lineCount
        = (HistoryScroll.compact old).lineCount ∧
    (t.scroll specOps (some (.compact old))).ret.lines = old.lines ∧
    ∀ i, i < (HistoryScroll.compact old).lineCount →
      (t.scroll specOps (some (.compact old))).ret.lineLength i
          = (HistoryScroll.compact old).lineLength i ∧
      (∀ col, (t.scroll specOps (some (.compact old))).ret.cellAt i col
          = (HistoryScroll.compact old).cellAt i col) ∧
      (t.scroll specOps (some (.compact old))).ret.isLineWrapped i
          = (HistoryScroll.compact old).isLineWrapped i := by
  have hl : (t.scroll specOps (some (.compact old))).ret.lines = old.lines := by
    rw [scroll_compact_lines]
    have h0 : old.lines.length - t._maxLines = 0 := Nat.sub_eq_zero_of_le h
    rw [h0, List.drop_zero]
  refine ⟨?_, hl, ?_⟩
  · show (t.scroll specOps (some (.compact old))).ret.lines.length = old.lines.length
    rw [hl]
  · intro i _
    apply readers_congr
    rw [hl]
    rfl

/-- C1, evaluated on the scroll holding "abc" (wrapped) and "de" under the limit 3. -/
theorem scroll_keeps_history_within_limit_witness :
    (HistoryScroll.compact ⟨[lineAbc, lineDe], 2⟩).lineCount ≤ 3 ∧
    ((CompactHistoryType.create 3).scroll specOps
        (some (.compact ⟨[lineAbc, lineDe], 2⟩))).ret.lineCount = 2 ∧
    ((CompactHistoryType.create 3).scroll specOps
        (some (.compact ⟨[lineAbc, lineDe], 2⟩))).ret.lines = [lineAbc, lineDe] ∧
    ((CompactHistoryType.create 3).scroll specOps
        (some (.compact ⟨[lineAbc, lineDe], 2⟩))).ret.isLineWrapped 0 = some true ∧
    ((CompactHistoryType.create 3).scroll specOps
        (some (.compact ⟨[lineAbc, lineDe], 2⟩))).ret.cellAt 1 1 = some (plainCell 101) :=
  have h := scroll_keeps_history_within_limit (CompactHistoryType.create 3)
    ⟨[lineAbc, lineDe], 2⟩ (by decide)
  ⟨by decide, h.1, h.2.1, (h.2.2 0 (by decide)).2.2, (h.2.2 1 (by decide)).2.1 1⟩

/-- C4: shrinking the limit takes effect at once.  When the previous scroll is a
`CompactHistoryScroll` holding `n > _maxLines` lines, the returned scroll holds
exactly `_maxLines` lines, they are the `_maxLines` newest lines of the previous
scroll in their order, and line `i` of the result reads as line `n - _maxLines + i`
did before. -/
theorem scroll_shrinks_immediately (t : CompactHistoryType)
    (old : CompactHistoryScroll)
    (h : t._maxLines < (HistoryScroll.compact old).lineCount) :
    (t.scroll specOps (some (.compact old))).ret.lineCount ≤ t._maxLines ∧
    (t.scroll specOps (some (.compact old))).ret.lineCount = t._maxLines ∧
    (t.scroll specOps (some (.compact old))).ret.lines
        = old.lines.drop ((HistoryScroll.compact old).lineCount - t._maxLines) ∧
    ∀ i, i < t._maxLines →
      (t.scroll specOps (some (.compact old))).ret.lineLength i
          = (HistoryScroll.compact old).lineLength
              ((HistoryScroll.compact old).lineCount - t._maxLines + i) ∧
      (∀ col, (t.scroll specOps (some (.compact old))).ret.cellAt i col
          = (HistoryScroll.compact old).cellAt
              ((HistoryScroll.compact old).lineCount - t._maxLines + i) col) ∧
      (t.scroll specOps (some (.compact old))).ret.isLineWrapped i
          = (HistoryScroll.compact old).isLineWrapped
              ((HistoryScroll.compact old).lineCount - t._maxLines + i) := by
  have hn : (HistoryScroll.compact old).lineCount = old.lines.length := rfl
  have hl := scroll_compact_lines t old
  have hc : (t.scroll specOps (some (.compact old))).ret.lineCount = t._maxLines := by
    simp only [HistoryScroll.lineCount, hl, List.length_drop]
    rw [hn] at h
    omega
  refine ⟨le_of_eq hc, hc, ?_, ?_⟩
  · rw [hl, hn]
  · intro i _
    apply readers_congr
    rw [hl, hn, List.getElem?_drop]
    rfl

/-- C4, evaluated on the scroll holding "abc", "de", "f" when the limit shrinks
to 2. -/
theorem scroll_shrinks_immediately_witness :
    2 < (HistoryScroll.compact ⟨[lineAbc, lineDe, lineF], 10⟩).lineCount ∧
    ((CompactHistoryType.create 2).scroll specOps
        (some (.compact ⟨[lineAbc, lineDe, lineF], 10⟩))).ret.lineCount = 2 ∧
    ((CompactHistoryType.create 2).scroll specOps
        (some (.compact ⟨[lineAbc, lineDe, lineF], 10⟩))).ret.lines = [lineDe, lineF] :=
  have h := scroll_shrinks_immediately (CompactHistoryType.create 2)
    ⟨[lineAbc, lineDe, lineF], 10⟩ (by decide)
  ⟨by decide, h.2.1, h.2.2.1⟩

/-! ## Policy switches from another kind of scroll -/

/-- C2 fails for a file-backed previous scroll: the scroll holding the single line
"abc" is handed to a policy with limit 5; it is deleted and the returned scroll is
empty, so the line that would survive the limit is not carried over. -/
theorem scroll_file_backed_content_lost :
    1 ≤ (HistoryScroll.file [lineAbc] : HistoryScroll CompactHistoryScroll).lineCount ∧
    ((CompactHistoryType.create 5).scroll specOps (some (.file [lineAbc]))).deletedOld
        = true ∧
    ((CompactHistoryType.create 5).scroll specOps (some (.file [lineAbc]))).ret.lineCount
        = 0 ∧
    ((CompactHistoryType.create 5).scroll specOps (some (.file [lineAbc]))).ret.lines
        ≠ (HistoryScroll.file [lineAbc] : HistoryScroll CompactHistoryScroll).lines.drop
            ((HistoryScroll.file [lineAbc] : HistoryScroll CompactHistoryScroll).lineCount
              - (CompactHistoryType.create 5)._maxLines) := by
  decide

/-- C2 as amended: content is carried over exactly when the previous scroll is a
`CompactHistoryScroll`.  That scroll is returned itself, never deleted, and holds
its surviving lines, the newest `min n _maxLines` of them, oldest first.  A
previous scroll of another kind, file-backed or disabled, is deleted without being
read and the returned scroll is a new `CompactHistoryScroll` with no lines, whatever
the previous scroll held. -/
theorem scroll_carries_content_from_compact_only (t : CompactHistoryType) :
    (∀ old : CompactHistoryScroll,
      (t.scroll specOps (some (.compact old))).deletedOld = false ∧
      (t.scroll specOps (some (.compact old))).ret.lines
          = old.lines.drop (old.lines.length - t._maxLines) ∧
      (t.scroll specOps (some (.compact old))).ret.lineCount
          = min old.lines.length t._maxLines) ∧
    (∀ ls : List Line,
      t.scroll specOps (some (.file ls))
          = ⟨.compact (CompactHistoryScroll.create t._maxLines), true⟩ ∧
      (t.scroll specOps (some (.file ls))).ret.lineCount = 0) ∧
    (t.scroll specOps (some .none)
          = ⟨.compact (CompactHistoryScroll.create t._maxLines), true⟩ ∧
      (t.scroll specOps (some .none)).ret.lineCount = 0) := by
  refine ⟨fun old => ⟨rfl, scroll_compact_lines t old, ?_⟩, fun ls => ⟨rfl, rfl⟩, rfl, rfl⟩
  show (t.scroll specOps (some (.compact old))).ret.lines.length = _
  rw [scroll_compact_lines, List.length_drop]
  omega

/-- C3: whatever the argument (null, a `CompactHistoryScroll`, a scroll of another
kind) and whatever the implementation of `CompactHistoryScroll`, the returned object
is a `CompactHistoryScroll` configured with the limit of the policy: it is the
previous in-memory scroll after `setMaxNbLines(_maxLines)` when there is one, and a
scroll constructed with `_maxLines` in the two other branches. -/
theorem scroll_is_compact_with_policy_limit {β : Type} (ops : CompactScrollOps β)
    (t : CompactHistoryType) (old : Option (HistoryScroll β)) :
    ∃ c : β, (t.scroll ops old).ret = .compact c ∧
      ((∃ b, old = some (.compact b) ∧ c = ops.setMaxNbLines b t._maxLines) ∨
       ((∀ b, old ≠ some (.compact b)) ∧ c = ops.construct t._maxLines)) := by
  cases old with
  | none => exact ⟨_, rfl, Or.inr ⟨fun b hb => (by cases hb), rfl⟩⟩
  | some o =>
    cases o with
    | none => exact ⟨_, rfl, Or.inr ⟨fun b hb => (by cases hb), rfl⟩⟩
    | file ls => exact ⟨_, rfl, Or.inr ⟨fun b hb => (by cases hb), rfl⟩⟩
    | compact b => exact ⟨_, rfl, Or.inl ⟨b, rfl, rfl⟩⟩

/-- In the reader-level model the returned scroll carries the limit of the policy. -/
theorem scroll_model_limit (t : CompactHistoryType)
    (old : Option (HistoryScroll CompactHistoryScroll)) :
    ∃ c, (t.scroll specOps old).ret = .compact c ∧ c._maxLineCount = t._maxLines := by
  rcases old with _ | _ | _ | _ <;> exact ⟨_, rfl, rfl⟩

/-- C7: a bounded in-memory policy reports itself enabled for every line limit,
the limit 0 included. -/
theorem compactHistoryType_isEnabled (nbLines : Nat) :
    (CompactHistoryType.create nbLines).isEnabled = true ∧
    (CompactHistoryType.create 0).isEnabled = true :=
  ⟨rfl, rfl⟩

/-! ## Ordering of profiles -/

/-- C5: when exactly one of two profiles is the fallback profile, the comparator
puts the fallback one first, whatever the names and whatever the name comparison
returns. -/
theorem profileNamesCompare_fallback_first (lac : String → String → Int)
    (fallback other : Profile) (hf : fallback.isFallback = true)
    (ho : other.isFallback = false) :
    profileNamesCompare lac fallback other = true ∧
    profileNamesCompare lac other fallback = false := by
  simp [profileNamesCompare, hf, ho]

/-- C5, evaluated on the fallback profile "Default" and the profile "A". -/
theorem profileNamesCompare_fallback_first_witness :
    profileNamesCompare lengthCompare ⟨"Default", true⟩ ⟨"A", false⟩ = true ∧
    profileNamesCompare lengthCompare ⟨"A", false⟩ ⟨"Default", true⟩ = false :=
  profileNamesCompare_fallback_first lengthCompare ⟨"Default", true⟩ ⟨"A", false⟩ rfl rfl

/-- C6: for two profiles that are both not the fallback profile the comparator is
true exactly when `localeAwareCompare` of the two names is negative; when the name
comparison returns 0 on equal names, two such profiles with equal names are
equivalent, neither is before the other. -/
theorem profileNamesCompare_non_fallback (lac : String → String → Int)
    (p1 p2 : Profile) (h1 : p1.isFallback = false) (h2 : p2.isFallback = false) :
    (profileNamesCompare lac p1 p2 = true ↔ lac p1.name p2.name < 0) ∧
    ((∀ s, lac s s = 0) → p1.name = p2.name →
      profileNamesCompare lac p1 p2 = false ∧ profileNamesCompare lac p2 p1 = false) := by
  refine ⟨by simp [profileNamesCompare, h1, h2], fun hs hn => ?_⟩
  simp [profileNamesCompare, h1, h2, hn, hs]

/-- C6, evaluated on two distinct non-fallback profiles that are both named "zsh". -/
theorem profileNamesCompare_non_fallback_witness :
    (profileNamesCompare lengthCompare ⟨"zsh", false⟩ ⟨"zsh", false⟩ = true
        ↔ lengthCompare "zsh" "zsh" < 0) ∧
    profileNamesCompare lengthCompare ⟨"zsh", false⟩ ⟨"zsh", false⟩ = false :=
  have h := profileNamesCompare_non_fallback lengthCompare ⟨"zsh", false⟩ ⟨"zsh", false⟩
    rfl rfl
  ⟨h.1, (h.2 (fun s => by simp [lengthCompare]) rfl).1⟩

/-- The comparator is transitive for every transitive name comparison, the fallback
profile included. -/
theorem profileNamesCompare_trans (lac : String → String → Int)
    (htrans : ∀ x y z, lac x y < 0 → lac y z < 0 → lac x z < 0) (a b c : Profile)
    (hab : profileNamesCompare lac a b = true) (hbc : profileNamesCompare lac b c = true) :
    profileNamesCompare lac a c = true := by
  unfold profileNamesCompare at hab hbc ⊢
  cases ha : a.isFallback <;> cases hb : b.isFallback <;> cases hc : c.isFallback <;>
    simp_all
  exact htrans _ _ _ hab hbc

/-- Away from the fallback profile the comparator is irreflexive and asymmetric for
every consistent name comparison. -/
theorem profileNamesCompare_strict_non_fallback (lac : String → String → Int)
    (hasym : ∀ x y, lac x y < 0 → ¬ lac y x < 0) (a b : Profile)
    (ha : a.isFallback = false) :
    profileNamesCompare lac a a = false ∧
    (profileNamesCompare lac a b = true → profileNamesCompare lac b a = false) := by
  unfold profileNamesCompare
  rw [ha]
  cases hb : b.isFallback
  · simp only [Bool.false_eq_true, if_false, decide_eq_true_eq, decide_eq_false_iff_not]
    exact ⟨fun h => hasym _ _ h h, fun h => hasym _ _ h⟩
  · simp only [Bool.false_eq_true, if_false, if_true, decide_eq_false_iff_not]
    exact ⟨fun h => hasym _ _ h h, fun h => absurd h (by decide)⟩

/-- C8 fails on the code: compared with itself, the fallback profile is reported to
be before itself, for every name comparison, so the comparator is neither
irreflexive nor asymmetric. -/
theorem profileNamesCompare_fallback_before_itself (lac : String → String → Int) :
    profileNamesCompare lac ⟨"Default", true⟩ ⟨"Default", true⟩ = true ∧
    ¬ (∀ a : Profile, profileNamesCompare lac a a = false) ∧
    ¬ (∀ a b : Profile, profileNamesCompare lac a b = true →
        profileNamesCompare lac b a = false) := by
  have h : profileNamesCompare lac ⟨"Default", true⟩ ⟨"Default", true⟩ = true := rfl
  refine ⟨h, fun hirr => ?_, fun hasym => ?_⟩
  · have h2 := hirr ⟨"Default", true⟩
    rw [h] at h2
    exact Bool.noConfusion h2
  · have h2 := hasym ⟨"Default", true⟩ ⟨"Default", true⟩ h
    rw [h] at h2
    exact Bool.noConfusion h2

end Konsole
